import Mathlib

/-!
Verification of the loyal-loop token-and-exchange accounting core.

Shallow embedding of the two contracts:
  * `LoyaltyToken` (the coupon-bearing version, `src/unnamed/part_006`):
    ERC-20 balances plus emission (mint), coupon creation (burn) and
    coupon redemption.
  * `SimpleDEX` (`src/contracts/SimpleDEX.sol`): flat-rate swap pool with
    manual liquidity counters and basis-point fee.

Modelling conventions:
  * `uint256` is modelled as `Nat`.  Solidity 0.8 checked arithmetic
    means no value ever wraps: an overflowing transaction reverts and
    leaves state unchanged, which the unbounded-`Nat` model subsumes.
  * Addresses are `Nat`; the zero address is `0`.  `msg.sender` is an
    explicit parameter of every operation.
  * A reverting call is `none`; `applyOp` maps a revert to the unchanged
    state (all-or-nothing transaction semantics).
  * Solidity division by zero panics (reverts); the embedding returns
    `none` at the corresponding points.
  * External ERC-20 transfers performed by the DEX are modelled as
    succeeding; if one failed the whole call would revert, which the
    step function already models as the identity.
-/

namespace LoyalLoop

/-- Value of `10 ** decimals()` with the default ERC-20 `decimals() = 18`. -/
def decimalsFactor : Nat := 10 ^ 18

/-- Coupon record (struct `Coupon` in `LoyaltyToken`). -/
structure Coupon where
  id : Nat
  owner : Nat
  discountPercent : Nat
  tokensBurned : Nat
  expiryTime : Nat
  isUsed : Bool
  businessType : String
  deriving Repr, DecidableEq

/-- The all-zero record a Solidity mapping returns for an absent key. -/
def defaultCoupon : Coupon :=
  { id := 0, owner := 0, discountPercent := 0, tokensBurned := 0
    expiryTime := 0, isUsed := false, businessType := "" }

/-- Storage of the `LoyaltyToken` contract, together with the inherited
ERC-20 balance mapping and total supply. -/
structure LoyaltyToken where
  owner : Nat
  emissionRate : Nat
  unitValue : Nat
  totalMinted : Nat
  totalBurned : Nat
  nextCouponId : Nat
  coupons : Nat → Coupon
  userCoupons : Nat → List Nat
  balances : Nat → Nat
  totalSupply : Nat

namespace LoyaltyToken

/-- OpenZeppelin `_mint`: reverts on the zero address, otherwise credits
`amount` and grows the total supply. -/
def mintERC20 (s : LoyaltyToken) (account amount : Nat) : Option LoyaltyToken :=
  if account = 0 then none
  else some { s with
    balances := Function.update s.balances account (s.balances account + amount)
    totalSupply := s.totalSupply + amount }

/-- OpenZeppelin `_burn`: reverts on the zero address or insufficient
balance, otherwise debits `amount` and shrinks the total supply. -/
def burnERC20 (s : LoyaltyToken) (account amount : Nat) : Option LoyaltyToken :=
  if account = 0 then none
  else if s.balances account < amount then none
  else some { s with
    balances := Function.update s.balances account (s.balances account - amount)
    totalSupply := s.totalSupply - amount }

/-- Solidity `constructor()`: mints the 1,000-token initial supply to the deployer
and records it in `totalMinted`. -/
def constructor (deployer : Nat) : LoyaltyToken :=
  { owner := deployer
    emissionRate := 1
    unitValue := 3
    totalMinted := 1000 * decimalsFactor
    totalBurned := 0
    nextCouponId := 1
    coupons := fun _ => defaultCoupon
    userCoupons := fun _ => []
    balances := Function.update (fun _ => 0) deployer (1000 * decimalsFactor)
    totalSupply := 1000 * decimalsFactor }

/-- Function `setEmissionRate`, owner-only. -/
def setEmissionRate (s : LoyaltyToken) (sender rate : Nat) : Option LoyaltyToken :=
  if sender ≠ s.owner then none
  else some { s with emissionRate := rate }

/-- Function `setUnitValue`, owner-only, no further validation. -/
def setUnitValue (s : LoyaltyToken) (sender unit : Nat) : Option LoyaltyToken :=
  if sender ≠ s.owner then none
  else some { s with unitValue := unit }

/-- Function `earnTokens(customer, amountSpent)`, owner-only mint. -/
def earnTokens (s : LoyaltyToken) (sender customer amountSpent : Nat) :
    Option LoyaltyToken :=
  if sender ≠ s.owner then none
  else if s.unitValue = 0 then none -- division-by-zero panic
  else
    let tokensToMint := amountSpent / s.unitValue * s.emissionRate
    let tokensWithDecimals := tokensToMint * decimalsFactor
    match mintERC20 s customer tokensWithDecimals with
    | none => none
    | some s1 => some { s1 with totalMinted := s1.totalMinted + tokensWithDecimals }

/-- Function `earnTokensForSelf(amountSpent)`: caller mints for themselves after
`amountSpent > 0`, `amountSpent >= unitValue` and `tokensToMint > 0`. -/
def earnTokensForSelf (s : LoyaltyToken) (sender amountSpent : Nat) :
    Option LoyaltyToken :=
  if amountSpent = 0 then none
  else if amountSpent < s.unitValue then none
  else if s.unitValue = 0 then none -- division-by-zero panic
  else
    let tokensToMint := amountSpent / s.unitValue * s.emissionRate
    if tokensToMint = 0 then none
    else
      let tokensWithDecimals := tokensToMint * decimalsFactor
      match mintERC20 s sender tokensWithDecimals with
      | none => none
      | some s1 => some { s1 with totalMinted := s1.totalMinted + tokensWithDecimals }

/-- Function `createCoupon(tokenAmount, discountPercent, businessType, validityDays)`
at block timestamp `now`; returns the updated state and the new coupon id. -/
def createCoupon (s : LoyaltyToken) (sender tokenAmount discountPercent : Nat)
    (businessType : String) (validityDays now : Nat) :
    Option (LoyaltyToken × Nat) :=
  if tokenAmount = 0 then none
  else if ¬ (0 < discountPercent ∧ discountPercent ≤ 100) then none
  else if ¬ (0 < validityDays ∧ validityDays ≤ 365) then none
  else if s.balances sender < tokenAmount then none
  else
    match burnERC20 s sender tokenAmount with
    | none => none
    | some s1 =>
      let s2 := { s1 with totalBurned := s1.totalBurned + tokenAmount }
      let couponId := s2.nextCouponId
      let expiryTime := now + validityDays * 24 * 60 * 60
      let c : Coupon :=
        { id := couponId, owner := sender, discountPercent := discountPercent
          tokensBurned := tokenAmount, expiryTime := expiryTime
          isUsed := false, businessType := businessType }
      some ({ s2 with
        nextCouponId := couponId + 1
        coupons := Function.update s2.coupons couponId c
        userCoupons := Function.update s2.userCoupons sender
          (s2.userCoupons sender ++ [couponId]) }, couponId)

/-- Function `useCoupon(couponId)` at block timestamp `now`. -/
def useCoupon (s : LoyaltyToken) (sender couponId now : Nat) :
    Option LoyaltyToken :=
  let coupon := s.coupons couponId
  if coupon.owner ≠ sender then none
  else if coupon.isUsed then none
  else if coupon.expiryTime < now then none
  else some { s with
    coupons := Function.update s.coupons couponId { coupon with isUsed := true } }

/-- View `isCouponValid(couponId)` at block timestamp `now`. -/
def isCouponValid (s : LoyaltyToken) (couponId now : Nat) : Bool :=
  let coupon := s.coupons couponId
  !coupon.isUsed && decide (now ≤ coupon.expiryTime) && decide (coupon.owner ≠ 0)

/-- Inherited ERC-20 `transfer`. -/
def transfer (s : LoyaltyToken) (sender recipient amount : Nat) :
    Option LoyaltyToken :=
  if sender = 0 then none
  else if recipient = 0 then none
  else if s.balances sender < amount then none
  else
    let b1 := Function.update s.balances sender (s.balances sender - amount)
    some { s with balances := Function.update b1 recipient (b1 recipient + amount) }

end LoyaltyToken

/-- One external call to the ledger, with its sender and (where the source
reads `block.timestamp`) its timestamp. -/
inductive LOp where
  | opSetEmissionRate (sender rate : Nat)
  | opSetUnitValue (sender unit : Nat)
  | opEarnTokens (sender customer amountSpent : Nat)
  | opEarnTokensForSelf (sender amountSpent : Nat)
  | opCreateCoupon (sender tokenAmount discountPercent : Nat)
      (businessType : String) (validityDays now : Nat)
  | opUseCoupon (sender couponId now : Nat)
  | opTransfer (sender recipient amount : Nat)
  deriving Repr, DecidableEq

/-- The `msg.sender` of a ledger call. -/
def LOp.sender : LOp → Nat
  | .opSetEmissionRate s _ => s
  | .opSetUnitValue s _ => s
  | .opEarnTokens s _ _ => s
  | .opEarnTokensForSelf s _ => s
  | .opCreateCoupon s _ _ _ _ _ => s
  | .opUseCoupon s _ _ => s
  | .opTransfer s _ _ => s

/-- Transaction semantics: a reverting call (`none`) leaves the state
unchanged. -/
def applyOp (s : LoyaltyToken) (op : LOp) : LoyaltyToken :=
  match op with
  | .opSetEmissionRate sender rate => (s.setEmissionRate sender rate).getD s
  | .opSetUnitValue sender unit => (s.setUnitValue sender unit).getD s
  | .opEarnTokens sender customer amountSpent =>
      (s.earnTokens sender customer amountSpent).getD s
  | .opEarnTokensForSelf sender amountSpent =>
      (s.earnTokensForSelf sender amountSpent).getD s
  | .opCreateCoupon sender tokenAmount discountPercent businessType validityDays now =>
      match s.createCoupon sender tokenAmount discountPercent businessType validityDays now with
      | some (s', _) => s'
      | none => s
  | .opUseCoupon sender couponId now => (s.useCoupon sender couponId now).getD s
  | .opTransfer sender recipient amount => (s.transfer sender recipient amount).getD s

/-- Run a sequence of ledger calls. -/
def run (s : LoyaltyToken) (ops : List LOp) : LoyaltyToken :=
  ops.foldl applyOp s

/-- The three operations named by the supply-conservation property. -/
def isSupplyOp : LOp → Bool
  | .opEarnTokens _ _ _ => true
  | .opEarnTokensForSelf _ _ => true
  | .opCreateCoupon _ _ _ _ _ _ => true
  | _ => false

/-- The supply ledger invariant: `totalMinted = totalBurned + totalSupply`. -/
def SupplyInv (s : LoyaltyToken) : Prop :=
  s.totalMinted = s.totalBurned + s.totalSupply

/-- Every mapping slot at or above `nextCouponId` is still the untouched
all-zero record: coupon ids are allocated strictly below `nextCouponId`. -/
def CouponIdInv (s : LoyaltyToken) : Prop :=
  ∀ cid, s.nextCouponId ≤ cid → s.coupons cid = defaultCoupon

/-- Storage of the `SimpleDEX` contract. -/
structure SimpleDEX where
  owner : Nat
  loyalToken : Nat
  exchangeRate : Nat
  feePercentage : Nat
  ethLiquidity : Nat
  tokenLiquidity : Nat
  deriving Repr, DecidableEq

namespace SimpleDEX

/-- Solidity `constructor(_loyalToken, _exchangeRate, _feePercentage)`. -/
def constructor (deployer loyalTokenAddr exchangeRate feePercentage : Nat) :
    Option SimpleDEX :=
  if loyalTokenAddr = 0 then none
  else if exchangeRate = 0 then none
  else if 1000 < feePercentage then none
  else some { owner := deployer, loyalToken := loyalTokenAddr
              exchangeRate := exchangeRate, feePercentage := feePercentage
              ethLiquidity := 0, tokenLiquidity := 0 }

/-- Function `swapEthForTokens()` with `msg.value = msgValue`; returns the updated
state, the tokens sent to the caller, and the fee withheld. -/
def swapEthForTokens (s : SimpleDEX) (msgValue : Nat) :
    Option (SimpleDEX × Nat × Nat) :=
  if msgValue = 0 then none
  else
    let tokenAmount := msgValue * s.exchangeRate / 10 ^ 18
    let fee := tokenAmount * s.feePercentage / 10000
    let tokensToSend := tokenAmount - fee
    if s.tokenLiquidity < tokensToSend then none
    else some ({ s with
      ethLiquidity := s.ethLiquidity + msgValue
      tokenLiquidity := s.tokenLiquidity - tokensToSend }, tokensToSend, fee)

/-- Function `swapTokensForEth(_tokenAmount)`; returns the updated state, the native
amount sent to the caller, and the fee withheld. -/
def swapTokensForEth (s : SimpleDEX) (tokenAmount : Nat) :
    Option (SimpleDEX × Nat × Nat) :=
  if tokenAmount = 0 then none
  else if s.exchangeRate = 0 then none -- division-by-zero panic
  else
    let ethAmount := tokenAmount * 10 ^ 18 / s.exchangeRate
    let fee := ethAmount * s.feePercentage / 10000
    let ethToSend := ethAmount - fee
    if s.ethLiquidity < ethToSend then none
    else some ({ s with
      tokenLiquidity := s.tokenLiquidity + tokenAmount
      ethLiquidity := s.ethLiquidity - ethToSend }, ethToSend, fee)

/-- Function `addLiquidity(_tokenAmount)` with `msg.value = msgValue`. -/
def addLiquidity (s : SimpleDEX) (msgValue tokenAmount : Nat) : Option SimpleDEX :=
  if msgValue = 0 then none
  else if tokenAmount = 0 then none
  else some { s with
    ethLiquidity := s.ethLiquidity + msgValue
    tokenLiquidity := s.tokenLiquidity + tokenAmount }

/-- Function `removeLiquidity(_ethAmount, _tokenAmount)`, owner-only. -/
def removeLiquidity (s : SimpleDEX) (sender ethAmount tokenAmount : Nat) :
    Option SimpleDEX :=
  if sender ≠ s.owner then none
  else if s.ethLiquidity < ethAmount then none
  else if s.tokenLiquidity < tokenAmount then none
  else some { s with
    ethLiquidity := s.ethLiquidity - ethAmount
    tokenLiquidity := s.tokenLiquidity - tokenAmount }

/-- Function `updateExchangeRate(_newRate)`, owner-only, requires a positive rate. -/
def updateExchangeRate (s : SimpleDEX) (sender newRate : Nat) : Option SimpleDEX :=
  if sender ≠ s.owner then none
  else if newRate = 0 then none
  else some { s with exchangeRate := newRate }

/-- Function `updateFee(_newFee)`, owner-only, capped at 1000 basis points. -/
def updateFee (s : SimpleDEX) (sender newFee : Nat) : Option SimpleDEX :=
  if sender ≠ s.owner then none
  else if 1000 < newFee then none
  else some { s with feePercentage := newFee }

/-- Function `emergencyWithdraw()`, owner-only: zeroes both liquidity counters
(the swept asset balances live outside this model). -/
def emergencyWithdraw (s : SimpleDEX) (sender : Nat) : Option SimpleDEX :=
  if sender ≠ s.owner then none
  else some { s with ethLiquidity := 0, tokenLiquidity := 0 }

/-- View `calculateSwap(_inputAmount, _ethToToken)`: pure preview returning
`(outputAmount, feeAmount)`. -/
def calculateSwap (s : SimpleDEX) (inputAmount : Nat) (ethToToken : Bool) :
    Nat × Nat :=
  if ethToToken then
    let tokenAmount := inputAmount * s.exchangeRate / 10 ^ 18
    let feeAmount := tokenAmount * s.feePercentage / 10000
    (tokenAmount - feeAmount, feeAmount)
  else
    let ethAmount := inputAmount * 10 ^ 18 / s.exchangeRate
    let feeAmount := ethAmount * s.feePercentage / 10000
    (ethAmount - feeAmount, feeAmount)

end SimpleDEX

/-- One external call to the pool. -/
inductive DexOp where
  | opSwapEthForTokens (msgValue : Nat)
  | opSwapTokensForEth (tokenAmount : Nat)
  | opAddLiquidity (msgValue tokenAmount : Nat)
  | opRemoveLiquidity (sender ethAmount tokenAmount : Nat)
  | opUpdateExchangeRate (sender newRate : Nat)
  | opUpdateFee (sender newFee : Nat)
  | opEmergencyWithdraw (sender : Nat)
  deriving Repr, DecidableEq

/-- Transaction semantics for the pool: a reverting call leaves the state
unchanged. -/
def dexStep (s : SimpleDEX) (op : DexOp) : SimpleDEX :=
  match op with
  | .opSwapEthForTokens v =>
      match s.swapEthForTokens v with
      | some (s', _, _) => s'
      | none => s
  | .opSwapTokensForEth amt =>
      match s.swapTokensForEth amt with
      | some (s', _, _) => s'
      | none => s
  | .opAddLiquidity v amt => (s.addLiquidity v amt).getD s
  | .opRemoveLiquidity sender e t => (s.removeLiquidity sender e t).getD s
  | .opUpdateExchangeRate sender r => (s.updateExchangeRate sender r).getD s
  | .opUpdateFee sender f => (s.updateFee sender f).getD s
  | .opEmergencyWithdraw sender => (s.emergencyWithdraw sender).getD s

/-- Run a sequence of pool calls. -/
def runDex (s : SimpleDEX) (ops : List DexOp) : SimpleDEX :=
  ops.foldl dexStep s

/-! ### Characterisation of the successful ledger calls -/

lemma mintERC20_some {s s' : LoyaltyToken} {c k : Nat}
    (h : s.mintERC20 c k = some s') :
    c ≠ 0 ∧
    s' = { s with
      balances := Function.update s.balances c (s.balances c + k)
      totalSupply := s.totalSupply + k } := by
  unfold LoyaltyToken.mintERC20 at h
  split at h
  · exact absurd h (by simp)
  · exact ⟨by assumption, (Option.some.inj h).symm⟩

lemma burnERC20_some {s s' : LoyaltyToken} {c k : Nat}
    (h : s.burnERC20 c k = some s') :
    c ≠ 0 ∧ k ≤ s.balances c ∧
    s' = { s with
      balances := Function.update s.balances c (s.balances c - k)
      totalSupply := s.totalSupply - k } := by
  unfold LoyaltyToken.burnERC20 at h
  split at h
  · exact absurd h (by simp)
  · split at h
    · exact absurd h (by simp)
    · exact ⟨by assumption, by omega, (Option.some.inj h).symm⟩

lemma setEmissionRate_some {s s' : LoyaltyToken} {sender rate : Nat}
    (h : s.setEmissionRate sender rate = some s') :
    s' = { s with emissionRate := rate } := by
  unfold LoyaltyToken.setEmissionRate at h
  split at h
  · exact absurd h (by simp)
  · exact (Option.some.inj h).symm

lemma setUnitValue_some {s s' : LoyaltyToken} {sender unit : Nat}
    (h : s.setUnitValue sender unit = some s') :
    s' = { s with unitValue := unit } := by
  unfold LoyaltyToken.setUnitValue at h
  split at h
  · exact absurd h (by simp)
  · exact (Option.some.inj h).symm

lemma earnTokens_some {s s' : LoyaltyToken} {sender customer a : Nat}
    (h : s.earnTokens sender customer a = some s') :
    ∃ k, customer ≠ 0 ∧ k = a / s.unitValue * s.emissionRate * decimalsFactor ∧
      s' = { s with
        balances := Function.update s.balances customer (s.balances customer + k)
        totalSupply := s.totalSupply + k
        totalMinted := s.totalMinted + k } := by
  unfold LoyaltyToken.earnTokens at h
  dsimp only at h
  split at h
  · exact absurd h (by simp)
  split at h
  · exact absurd h (by simp)
  · rcases hm : s.mintERC20 customer (a / s.unitValue * s.emissionRate * decimalsFactor)
        with _ | s1
    · rw [hm] at h; exact absurd h (by simp)
    · rw [hm] at h
      obtain ⟨hc, hs1⟩ := mintERC20_some hm
      refine ⟨_, hc, rfl, ?_⟩
      rw [← Option.some.inj h, hs1]

lemma earnTokensForSelf_some {s s' : LoyaltyToken} {sender a : Nat}
    (h : s.earnTokensForSelf sender a = some s') :
    ∃ k, sender ≠ 0 ∧ 0 < a ∧ s.unitValue ≤ a ∧
      k = a / s.unitValue * s.emissionRate * decimalsFactor ∧
      s' = { s with
        balances := Function.update s.balances sender (s.balances sender + k)
        totalSupply := s.totalSupply + k
        totalMinted := s.totalMinted + k } := by
  unfold LoyaltyToken.earnTokensForSelf at h
  dsimp only at h
  split at h
  · exact absurd h (by simp)
  split at h
  · exact absurd h (by simp)
  split at h
  · exact absurd h (by simp)
  split at h
  · exact absurd h (by simp)
  · rcases hm : s.mintERC20 sender (a / s.unitValue * s.emissionRate * decimalsFactor)
        with _ | s1
    · rw [hm] at h; exact absurd h (by simp)
    · rw [hm] at h
      obtain ⟨hc, hs1⟩ := mintERC20_some hm
      refine ⟨_, hc, by omega, by omega, rfl, ?_⟩
      rw [← Option.some.inj h, hs1]

lemma createCoupon_some {s s' : LoyaltyToken} {sender amt disc : Nat} {bt : String}
    {vd now cid : Nat}
    (h : s.createCoupon sender amt disc bt vd now = some (s', cid)) :
    0 < amt ∧ 0 < disc ∧ disc ≤ 100 ∧ 0 < vd ∧ vd ≤ 365 ∧
    amt ≤ s.balances sender ∧ sender ≠ 0 ∧ cid = s.nextCouponId ∧
    s' = { s with
      balances := Function.update s.balances sender (s.balances sender - amt)
      totalSupply := s.totalSupply - amt
      totalBurned := s.totalBurned + amt
      nextCouponId := s.nextCouponId + 1
      coupons := Function.update s.coupons s.nextCouponId
        { id := s.nextCouponId, owner := sender, discountPercent := disc
          tokensBurned := amt, expiryTime := now + vd * 24 * 60 * 60
          isUsed := false, businessType := bt }
      userCoupons := Function.update s.userCoupons sender
        (s.userCoupons sender ++ [s.nextCouponId]) } := by
  unfold LoyaltyToken.createCoupon at h
  dsimp only at h
  split at h
  · exact absurd h (by simp)
  split at h
  · exact absurd h (by simp)
  split at h
  · exact absurd h (by simp)
  split at h
  · exact absurd h (by simp)
  · rcases hb : s.burnERC20 sender amt with _ | s1
    · rw [hb] at h; exact absurd h (by simp)
    · rw [hb] at h
      dsimp only at h
      obtain ⟨hs0, hbal, hs1⟩ := burnERC20_some hb
      subst hs1
      have hpair := Option.some.inj h
      rw [Prod.mk.injEq] at hpair
      obtain ⟨hfst, hsnd⟩ := hpair
      refine ⟨by omega, by omega, by omega, by omega, by omega, by omega, hs0,
        hsnd.symm, ?_⟩
      rw [← hfst]

lemma useCoupon_some {s s' : LoyaltyToken} {sender cid now : Nat}
    (h : s.useCoupon sender cid now = some s') :
    (s.coupons cid).owner = sender ∧ (s.coupons cid).isUsed = false ∧
    now ≤ (s.coupons cid).expiryTime ∧
    s' = { s with
      coupons := Function.update s.coupons cid
        { s.coupons cid with isUsed := true } } := by
  unfold LoyaltyToken.useCoupon at h
  dsimp only at h
  split at h
  · exact absurd h (by simp)
  split at h
  · exact absurd h (by simp)
  split at h
  · exact absurd h (by simp)
  · refine ⟨by omega, by simp_all, by omega, ?_⟩
    rw [← Option.some.inj h]

lemma transfer_some {s s' : LoyaltyToken} {sender recipient amt : Nat}
    (h : s.transfer sender recipient amt = some s') :
    sender ≠ 0 ∧ recipient ≠ 0 ∧ amt ≤ s.balances sender ∧
    s' = { s with
      balances :=
        Function.update (Function.update s.balances sender (s.balances sender - amt))
          recipient
          (Function.update s.balances sender (s.balances sender - amt) recipient + amt) } := by
  unfold LoyaltyToken.transfer at h
  split at h
  · exact absurd h (by simp)
  split at h
  · exact absurd h (by simp)
  split at h
  · exact absurd h (by simp)
  · exact ⟨by assumption, by assumption, by omega, (Option.some.inj h).symm⟩

/-! ### The supply invariant (claim C1)

`totalSupply` is the ERC-20 aggregate of the balance mapping.  The
inductive invariant couples the two counters with the supply and keeps
the balance mapping finitely supported with the correct total, which is
what justifies the `totalSupply ≥ burn amount` step at every burn. -/

/-- The balance mapping vanishes from `N` on and sums to `totalSupply`. -/
def FiniteSupply (s : LoyaltyToken) : Prop :=
  ∃ N, (∀ a, N ≤ a → s.balances a = 0) ∧
    ∑ a ∈ Finset.range N, s.balances a = s.totalSupply

lemma sum_range_of_zero_above (f : Nat → Nat) {N M : Nat} (hNM : N ≤ M)
    (h0 : ∀ a, N ≤ a → f a = 0) :
    ∑ a ∈ Finset.range M, f a = ∑ a ∈ Finset.range N, f a := by
  refine (Finset.sum_subset (Finset.range_subset.2 hNM) ?_).symm
  intro a _ hna
  exact h0 a (Nat.le_of_not_lt (fun hc => hna (Finset.mem_range.2 hc)))

lemma sum_update_point (f : Nat → Nat) {N c : Nat} (hc : c < N) (v : Nat) :
    (∑ a ∈ Finset.range N, Function.update f c v a) + f c
      = (∑ a ∈ Finset.range N, f a) + v := by
  have hmem : c ∈ Finset.range N := Finset.mem_range.2 hc
  rw [Finset.sum_update_of_mem hmem, Finset.sdiff_singleton_eq_erase]
  have := Finset.add_sum_erase (Finset.range N) f hmem
  omega

lemma finiteSupply_update_add (s : LoyaltyToken) (c k : Nat)
    (hfs : FiniteSupply s) :
    FiniteSupply { s with
      balances := Function.update s.balances c (s.balances c + k)
      totalSupply := s.totalSupply + k } := by
  obtain ⟨N, hzero, hsum⟩ := hfs
  refine ⟨max N (c + 1), ?_, ?_⟩
  · intro a ha
    dsimp only
    have hac : a ≠ c := by omega
    rw [Function.update_noteq hac]
    exact hzero a (by omega)
  · dsimp only
    have hpt := sum_update_point s.balances
      (show c < max N (c + 1) by omega) (s.balances c + k)
    have hext : ∑ a ∈ Finset.range (max N (c + 1)), s.balances a
        = s.totalSupply := by
      rw [sum_range_of_zero_above s.balances (le_max_left _ _) hzero, hsum]
    omega

lemma finiteSupply_update_sub (s : LoyaltyToken) (c k : Nat)
    (hk : k ≤ s.balances c) (hfs : FiniteSupply s) :
    FiniteSupply { s with
      balances := Function.update s.balances c (s.balances c - k)
      totalSupply := s.totalSupply - k } := by
  obtain ⟨N, hzero, hsum⟩ := hfs
  refine ⟨max N (c + 1), ?_, ?_⟩
  · intro a ha
    dsimp only
    have hac : a ≠ c := by omega
    rw [Function.update_noteq hac]
    exact hzero a (by omega)
  · dsimp only
    have hpt := sum_update_point s.balances
      (show c < max N (c + 1) by omega) (s.balances c - k)
    have hext : ∑ a ∈ Finset.range (max N (c + 1)), s.balances a
        = s.totalSupply := by
      rw [sum_range_of_zero_above s.balances (le_max_left _ _) hzero, hsum]
    have hcle : s.balances c ≤ ∑ a ∈ Finset.range (max N (c + 1)), s.balances a :=
      Finset.single_le_sum (fun a _ => Nat.zero_le _)
        (Finset.mem_range.2 (by omega))
    omega

/-- The supply invariant also forces `totalSupply ≥` any single balance. -/
lemma balance_le_totalSupply {s : LoyaltyToken} (hfs : FiniteSupply s)
    (c : Nat) : s.balances c ≤ s.totalSupply := by
  obtain ⟨N, hzero, hsum⟩ := hfs
  by_cases hc : c < N
  · calc s.balances c
        ≤ ∑ a ∈ Finset.range N, s.balances a :=
          Finset.single_le_sum (fun a _ => Nat.zero_le _) (Finset.mem_range.2 hc)
      _ = s.totalSupply := hsum
  · rw [hzero c (by omega)]
    exact Nat.zero_le _

lemma finiteSupply_constructor (deployer : Nat) :
    FiniteSupply (LoyaltyToken.constructor deployer) := by
  refine ⟨deployer + 1, ?_, ?_⟩
  · intro a ha
    have : a ≠ deployer := by omega
    simp [LoyaltyToken.constructor, Function.update_noteq this]
  · have hmem : deployer ∈ Finset.range (deployer + 1) :=
      Finset.mem_range.2 (by omega)
    simp only [LoyaltyToken.constructor]
    rw [Finset.sum_update_of_mem hmem]
    simp

lemma supplyInv_constructor (deployer : Nat) :
    SupplyInv (LoyaltyToken.constructor deployer) := by
  simp [SupplyInv, LoyaltyToken.constructor]

/-- One step of any of the three supply-relevant operations preserves the
combined supply invariant. -/
lemma supply_step (s : LoyaltyToken) (op : LOp) (hop : isSupplyOp op = true)
    (h : SupplyInv s ∧ FiniteSupply s) :
    SupplyInv (applyOp s op) ∧ FiniteSupply (applyOp s op) := by
  obtain ⟨hsup, hfs⟩ := h
  cases op with
  | opEarnTokens sender customer a =>
    rcases he : s.earnTokens sender customer a with _ | s'
    · simpa [applyOp, he] using ⟨hsup, hfs⟩
    · simp only [applyOp, he, Option.getD_some]
      obtain ⟨k, _, _, rfl⟩ := earnTokens_some he
      constructor
      · simp only [SupplyInv] at hsup ⊢
        omega
      · exact finiteSupply_update_add s customer k hfs
  | opEarnTokensForSelf sender a =>
    rcases he : s.earnTokensForSelf sender a with _ | s'
    · simpa [applyOp, he] using ⟨hsup, hfs⟩
    · simp only [applyOp, he, Option.getD_some]
      obtain ⟨k, _, _, _, _, rfl⟩ := earnTokensForSelf_some he
      constructor
      · simp only [SupplyInv] at hsup ⊢
        omega
      · exact finiteSupply_update_add s sender k hfs
  | opCreateCoupon sender amt disc bt vd now =>
    rcases he : s.createCoupon sender amt disc bt vd now with _ | p
    · simpa [applyOp, he] using ⟨hsup, hfs⟩
    · obtain ⟨s', cid⟩ := p
      simp only [applyOp, he]
      obtain ⟨_, _, _, _, _, hbal, _, _, rfl⟩ := createCoupon_some he
      have hble := balance_le_totalSupply hfs sender
      constructor
      · simp only [SupplyInv] at hsup ⊢
        omega
      · exact finiteSupply_update_sub s sender amt (by omega) hfs
  | opSetEmissionRate sender rate => simp [isSupplyOp] at hop
  | opSetUnitValue sender unit => simp [isSupplyOp] at hop
  | opUseCoupon sender cid now => simp [isSupplyOp] at hop
  | opTransfer sender recipient amount => simp [isSupplyOp] at hop

lemma supply_run (s : LoyaltyToken) (ops : List LOp)
    (hops : ∀ op ∈ ops, isSupplyOp op = true)
    (h : SupplyInv s ∧ FiniteSupply s) :
    SupplyInv (run s ops) ∧ FiniteSupply (run s ops) := by
  induction ops generalizing s with
  | nil => simpa [run] using h
  | cons op rest ih =>
    have h1 := supply_step s op (hops op (by simp)) h
    have := ih (applyOp s op) (fun o ho => hops o (by simp [ho])) h1
    simpa [run, List.foldl_cons] using this

/-! ### Coupon-id allocation invariant (claims C8, C9) -/

lemma couponIdInv_constructor (deployer : Nat) :
    CouponIdInv (LoyaltyToken.constructor deployer) := fun _ _ => rfl

lemma defaultCoupon_owner : defaultCoupon.owner = 0 := rfl

lemma defaultCoupon_isUsed : defaultCoupon.isUsed = false := rfl

/-- Applying any operation preserves the coupon-id allocation invariant; the only
operation that writes an existing slot is `useCoupon`, whose owner check
pins the slot below `nextCouponId` as long as the sender is a real
(non-zero) address. -/
lemma couponIdInv_step (s : LoyaltyToken) (op : LOp)
    (hs : op.sender ≠ 0) (hinv : CouponIdInv s) :
    CouponIdInv (applyOp s op) := by
  cases op with
  | opSetEmissionRate sender rate =>
    rcases he : s.setEmissionRate sender rate with _ | s'
    · simpa [applyOp, he] using hinv
    · obtain rfl := setEmissionRate_some he
      intro cid hcid
      simp only [applyOp, he, Option.getD_some] at hcid ⊢
      exact hinv cid hcid
  | opSetUnitValue sender unit =>
    rcases he : s.setUnitValue sender unit with _ | s'
    · simpa [applyOp, he] using hinv
    · obtain rfl := setUnitValue_some he
      intro cid hcid
      simp only [applyOp, he, Option.getD_some] at hcid ⊢
      exact hinv cid hcid
  | opEarnTokens sender customer a =>
    rcases he : s.earnTokens sender customer a with _ | s'
    · simpa [applyOp, he] using hinv
    · obtain ⟨k, _, _, rfl⟩ := earnTokens_some he
      intro cid hcid
      simp only [applyOp, he, Option.getD_some] at hcid ⊢
      exact hinv cid hcid
  | opEarnTokensForSelf sender a =>
    rcases he : s.earnTokensForSelf sender a with _ | s'
    · simpa [applyOp, he] using hinv
    · obtain ⟨k, _, _, _, _, rfl⟩ := earnTokensForSelf_some he
      intro cid hcid
      simp only [applyOp, he, Option.getD_some] at hcid ⊢
      exact hinv cid hcid
  | opCreateCoupon sender amt disc bt vd now =>
    rcases he : s.createCoupon sender amt disc bt vd now with _ | p
    · simpa [applyOp, he] using hinv
    · obtain ⟨s', cid0⟩ := p
      obtain ⟨_, _, _, _, _, _, _, _, rfl⟩ := createCoupon_some he
      intro cid hcid
      simp only [applyOp, he] at hcid ⊢
      have hne : cid ≠ s.nextCouponId := by omega
      rw [Function.update_noteq hne]
      exact hinv cid (by omega)
  | opUseCoupon sender cid0 now =>
    rcases he : s.useCoupon sender cid0 now with _ | s'
    · simpa [applyOp, he] using hinv
    · obtain ⟨hown, _, _, rfl⟩ := useCoupon_some he
      intro cid hcid
      simp only [applyOp, he, Option.getD_some] at hcid ⊢
      have hlt : cid0 < s.nextCouponId := by
        by_contra hge
        have hdef := hinv cid0 (by omega)
        have : (s.coupons cid0).owner = 0 := by rw [hdef]; rfl
        simp only [LOp.sender] at hs
        omega
      have hne : cid ≠ cid0 := by omega
      rw [Function.update_noteq hne]
      exact hinv cid hcid
  | opTransfer sender recipient amount =>
    rcases he : s.transfer sender recipient amount with _ | s'
    · simpa [applyOp, he] using hinv
    · obtain ⟨_, _, _, rfl⟩ := transfer_some he
      intro cid hcid
      simp only [applyOp, he, Option.getD_some] at hcid ⊢
      exact hinv cid hcid

/-- Once a coupon slot's `isUsed` flag is `true`, one further ledger call
(from a non-zero sender, under the allocation invariant) keeps it `true`. -/
lemma isUsed_step (s : LoyaltyToken) (op : LOp) (cid : Nat)
    (hs : op.sender ≠ 0) (hinv : CouponIdInv s)
    (hused : (s.coupons cid).isUsed = true) :
    ((applyOp s op).coupons cid).isUsed = true := by
  cases op with
  | opSetEmissionRate sender rate =>
    rcases he : s.setEmissionRate sender rate with _ | s'
    · simpa [applyOp, he] using hused
    · obtain rfl := setEmissionRate_some he
      simpa [applyOp, he] using hused
  | opSetUnitValue sender unit =>
    rcases he : s.setUnitValue sender unit with _ | s'
    · simpa [applyOp, he] using hused
    · obtain rfl := setUnitValue_some he
      simpa [applyOp, he] using hused
  | opEarnTokens sender customer a =>
    rcases he : s.earnTokens sender customer a with _ | s'
    · simpa [applyOp, he] using hused
    · obtain ⟨k, _, _, rfl⟩ := earnTokens_some he
      simpa [applyOp, he] using hused
  | opEarnTokensForSelf sender a =>
    rcases he : s.earnTokensForSelf sender a with _ | s'
    · simpa [applyOp, he] using hused
    · obtain ⟨k, _, _, _, _, rfl⟩ := earnTokensForSelf_some he
      simpa [applyOp, he] using hused
  | opCreateCoupon sender amt disc bt vd now =>
    rcases he : s.createCoupon sender amt disc bt vd now with _ | p
    · simpa [applyOp, he] using hused
    · obtain ⟨s', cid0⟩ := p
      obtain ⟨_, _, _, _, _, _, _, _, rfl⟩ := createCoupon_some he
      simp only [applyOp, he]
      have hlt : cid < s.nextCouponId := by
        by_contra hge
        have hdef := hinv cid (by omega)
        rw [hdef, defaultCoupon_isUsed] at hused
        exact absurd hused (by simp)
      have hne : cid ≠ s.nextCouponId := by omega
      rw [Function.update_noteq hne]
      exact hused
  | opUseCoupon sender cid0 now =>
    rcases he : s.useCoupon sender cid0 now with _ | s'
    · simpa [applyOp, he] using hused
    · obtain ⟨hown, _, _, rfl⟩ := useCoupon_some he
      simp only [applyOp, he, Option.getD_some]
      by_cases hc : cid = cid0
      · subst hc
        rw [Function.update_same]
      · rw [Function.update_noteq hc]
        exact hused
  | opTransfer sender recipient amount =>
    rcases he : s.transfer sender recipient amount with _ | s'
    · simpa [applyOp, he] using hused
    · obtain ⟨_, _, _, rfl⟩ := transfer_some he
      simpa [applyOp, he] using hused

lemma couponIdInv_isUsed_run (s : LoyaltyToken) (ops : List LOp) (cid : Nat)
    (hsend : ∀ op ∈ ops, op.sender ≠ 0) (hinv : CouponIdInv s)
    (hused : (s.coupons cid).isUsed = true) :
    CouponIdInv (run s ops) ∧ ((run s ops).coupons cid).isUsed = true := by
  induction ops generalizing s with
  | nil => exact ⟨hinv, hused⟩
  | cons op rest ih =>
    have hop := hsend op (by simp)
    have h1 := couponIdInv_step s op hop hinv
    have h2 := isUsed_step s op cid hop hinv hused
    have := ih (applyOp s op) (fun o ho => hsend o (by simp [ho])) h1 h2
    simpa [run, List.foldl_cons] using this

lemma couponIdInv_run (s : LoyaltyToken) (ops : List LOp)
    (hsend : ∀ op ∈ ops, op.sender ≠ 0) (hinv : CouponIdInv s) :
    CouponIdInv (run s ops) := by
  induction ops generalizing s with
  | nil => exact hinv
  | cons op rest ih =>
    have h1 := couponIdInv_step s op (hsend op (by simp)) hinv
    have := ih (applyOp s op) (fun o ho => hsend o (by simp [ho])) h1
    simpa [run, List.foldl_cons] using this

/-! ### Claim theorems for the token ledger -/

/-- C1.  Supply conservation: starting from the constructor state (which
mints the 1,000-token initial supply and sets `totalMinted` to it), for
every sequence of `earnTokens`, `earnTokensForSelf` and `createCoupon`
calls, `totalMinted - totalBurned = totalSupply()` holds in every
reachable state. -/
theorem supply_conservation (deployer : Nat) (ops : List LOp)
    (hops : ∀ op ∈ ops, isSupplyOp op = true) :
    (run (LoyaltyToken.constructor deployer) ops).totalMinted -
        (run (LoyaltyToken.constructor deployer) ops).totalBurned =
      (run (LoyaltyToken.constructor deployer) ops).totalSupply := by
  have h := supply_run (LoyaltyToken.constructor deployer) ops hops
    ⟨supplyInv_constructor deployer, finiteSupply_constructor deployer⟩
  have hs := h.1
  simp only [SupplyInv] at hs
  omega

/-- Witness for C1 at a concrete deployer and call sequence. -/
theorem supply_conservation_witness :
    (run (LoyaltyToken.constructor 1)
        [LOp.opEarnTokensForSelf 1 10,
         LOp.opCreateCoupon 1 2 50 "cafe" 30 100]).totalMinted -
        (run (LoyaltyToken.constructor 1)
          [LOp.opEarnTokensForSelf 1 10,
           LOp.opCreateCoupon 1 2 50 "cafe" 30 100]).totalBurned =
      (run (LoyaltyToken.constructor 1)
        [LOp.opEarnTokensForSelf 1 10,
         LOp.opCreateCoupon 1 2 50 "cafe" 30 100]).totalSupply :=
  supply_conservation 1
    [LOp.opEarnTokensForSelf 1 10, LOp.opCreateCoupon 1 2 50 "cafe" 30 100]
    (by decide)

/-- Under the four validation conditions (and a real sender address) the
coupon-creation call cannot revert. -/
lemma createCoupon_ne_none (s : LoyaltyToken) (sender amt disc : Nat)
    (bt : String) (vd now : Nat) (hsender : sender ≠ 0)
    (h1 : 0 < amt) (h2 : 1 ≤ disc) (h3 : disc ≤ 100)
    (h4 : 1 ≤ vd) (h5 : vd ≤ 365) (h6 : amt ≤ s.balances sender) :
    s.createCoupon sender amt disc bt vd now ≠ none := by
  unfold LoyaltyToken.createCoupon LoyaltyToken.burnERC20
  dsimp only
  rw [if_neg (by omega), if_neg (by omega), if_neg (by omega),
    if_neg (by omega), if_neg hsender, if_neg (by omega)]
  simp

/-- C2.  `createCoupon` postcondition: under the validation conditions it
burns exactly `tokenAmount` from the caller, increments `totalBurned`,
allocates the next sequential id (starting at 1 in the constructor
state), stores the coupon record with `expiryTime = now + validityDays *
86400`, `owner = caller`, `isUsed = false`, appends the id to the
caller's list, and returns the id; if any validation fails, the call
reverts (returns `none`, so the transaction changes no state). -/
theorem createCoupon_correct (s : LoyaltyToken) (sender amt disc : Nat)
    (bt : String) (vd now deployer : Nat) (hsender : sender ≠ 0) :
    (0 < amt ∧ 1 ≤ disc ∧ disc ≤ 100 ∧ 1 ≤ vd ∧ vd ≤ 365 ∧
        amt ≤ s.balances sender →
      s.createCoupon sender amt disc bt vd now =
        some ({ s with
          balances := Function.update s.balances sender (s.balances sender - amt)
          totalSupply := s.totalSupply - amt
          totalBurned := s.totalBurned + amt
          nextCouponId := s.nextCouponId + 1
          coupons := Function.update s.coupons s.nextCouponId
            { id := s.nextCouponId, owner := sender, discountPercent := disc
              tokensBurned := amt, expiryTime := now + vd * 86400
              isUsed := false, businessType := bt }
          userCoupons := Function.update s.userCoupons sender
            (s.userCoupons sender ++ [s.nextCouponId]) }, s.nextCouponId)) ∧
    (¬(0 < amt ∧ 1 ≤ disc ∧ disc ≤ 100 ∧ 1 ≤ vd ∧ vd ≤ 365 ∧
        amt ≤ s.balances sender) →
      s.createCoupon sender amt disc bt vd now = none) ∧
    (LoyaltyToken.constructor deployer).nextCouponId = 1 := by
  refine ⟨fun hpre => ?_, fun hneg => ?_, rfl⟩
  · obtain ⟨h1, h2, h3, h4, h5, h6⟩ := hpre
    rcases he : s.createCoupon sender amt disc bt vd now with _ | p
    · exact absurd he (createCoupon_ne_none s sender amt disc bt vd now
        hsender h1 h2 h3 h4 h5 h6)
    · obtain ⟨s', cid⟩ := p
      obtain ⟨_, _, _, _, _, _, _, hcid, rfl⟩ := createCoupon_some he
      rw [hcid]
      have harith : vd * 24 * 60 * 60 = vd * 86400 := by ring
      rw [harith]
  · unfold LoyaltyToken.createCoupon
    dsimp only
    split
    · rfl
    split
    · rfl
    split
    · rfl
    split
    · rfl
    · exact absurd (by omega) hneg

/-- Witness for C2: on the constructor state with deployer 1, burning 2
base units for a 50%-off 30-day coupon yields coupon id 1 and exactly the
predicted post-state. -/
theorem createCoupon_correct_witness :
    (LoyaltyToken.constructor 1).createCoupon 1 2 50 "cafe" 30 100 =
      some ({ LoyaltyToken.constructor 1 with
        balances := Function.update (LoyaltyToken.constructor 1).balances 1
          ((LoyaltyToken.constructor 1).balances 1 - 2)
        totalSupply := (LoyaltyToken.constructor 1).totalSupply - 2
        totalBurned := (LoyaltyToken.constructor 1).totalBurned + 2
        nextCouponId := (LoyaltyToken.constructor 1).nextCouponId + 1
        coupons := Function.update (LoyaltyToken.constructor 1).coupons
          (LoyaltyToken.constructor 1).nextCouponId
          { id := (LoyaltyToken.constructor 1).nextCouponId, owner := 1
            discountPercent := 50, tokensBurned := 2
            expiryTime := 100 + 30 * 86400, isUsed := false
            businessType := "cafe" }
        userCoupons := Function.update (LoyaltyToken.constructor 1).userCoupons 1
          ((LoyaltyToken.constructor 1).userCoupons 1 ++
            [(LoyaltyToken.constructor 1).nextCouponId]) },
        (LoyaltyToken.constructor 1).nextCouponId) :=
  (createCoupon_correct (LoyaltyToken.constructor 1) 1 2 50 "cafe" 30 100 1
    (by decide)).1 (by decide)

/-- The emission formula of `earnTokensForSelf` with the deployed
parameters `unitValue = 3`, `emissionRate = 1`. -/
lemma earnTokensForSelf_formula (s : LoyaltyToken) (sender a : Nat)
    (hsender : sender ≠ 0) (hu : s.unitValue = 3) (he : s.emissionRate = 1)
    (ha : 3 ≤ a) :
    s.earnTokensForSelf sender a =
      some { s with
        balances := Function.update s.balances sender
          (s.balances sender + a / 3 * decimalsFactor)
        totalSupply := s.totalSupply + a / 3 * decimalsFactor
        totalMinted := s.totalMinted + a / 3 * decimalsFactor } := by
  unfold LoyaltyToken.earnTokensForSelf LoyaltyToken.mintERC20
  dsimp only
  rw [hu, he]
  rw [if_neg (by omega), if_neg (by omega), if_neg (by omega),
    if_neg (by omega), if_neg hsender]
  rw [Nat.mul_one (a / 3)]

/-- C3.  Emission formula for `earnTokensForSelf`: with `unitValue = 3`
and `emissionRate = 1` it mints exactly `⌊amountSpent / 3⌋` whole tokens
scaled by the decimal factor to the caller (`9 ↦ 3` tokens, `10 ↦ 3`
tokens), and reverts at `amountSpent = 2` (below `unitValue`) and at
`amountSpent = 0`. -/
theorem earnTokensForSelf_emission (s : LoyaltyToken) (sender : Nat)
    (hsender : sender ≠ 0) (hu : s.unitValue = 3) (he : s.emissionRate = 1) :
    (∀ a, 3 ≤ a → s.earnTokensForSelf sender a =
      some { s with
        balances := Function.update s.balances sender
          (s.balances sender + a / 3 * decimalsFactor)
        totalSupply := s.totalSupply + a / 3 * decimalsFactor
        totalMinted := s.totalMinted + a / 3 * decimalsFactor }) ∧
    (s.earnTokensForSelf sender 9 =
      some { s with
        balances := Function.update s.balances sender
          (s.balances sender + 3 * decimalsFactor)
        totalSupply := s.totalSupply + 3 * decimalsFactor
        totalMinted := s.totalMinted + 3 * decimalsFactor }) ∧
    (s.earnTokensForSelf sender 10 =
      some { s with
        balances := Function.update s.balances sender
          (s.balances sender + 3 * decimalsFactor)
        totalSupply := s.totalSupply + 3 * decimalsFactor
        totalMinted := s.totalMinted + 3 * decimalsFactor }) ∧
    s.earnTokensForSelf sender 2 = none ∧
    s.earnTokensForSelf sender 0 = none := by
  refine ⟨fun a ha => earnTokensForSelf_formula s sender a hsender hu he ha,
    ?_, ?_, ?_, ?_⟩
  · simpa using earnTokensForSelf_formula s sender 9 hsender hu he (by omega)
  · simpa using earnTokensForSelf_formula s sender 10 hsender hu he (by omega)
  · unfold LoyaltyToken.earnTokensForSelf
    dsimp only
    rw [hu]
    norm_num
  · unfold LoyaltyToken.earnTokensForSelf
    dsimp only
    rw [if_pos rfl]

/-- Witness for C3 on the constructor state (which deploys with
`unitValue = 3`, `emissionRate = 1`): spending 2 or 0 reverts. -/
theorem earnTokensForSelf_emission_witness :
    (LoyaltyToken.constructor 1).earnTokensForSelf 1 2 = none ∧
    (LoyaltyToken.constructor 1).earnTokensForSelf 1 0 = none :=
  ⟨(earnTokensForSelf_emission (LoyaltyToken.constructor 1) 1 (by decide)
      rfl rfl).2.2.2.1,
   (earnTokensForSelf_emission (LoyaltyToken.constructor 1) 1 (by decide)
      rfl rfl).2.2.2.2⟩

/-- C9.  Coupon validity monotonicity: in any state reached from the
constructor by calls from real (non-zero) senders, once a coupon's
`isUsed` flag is `true`, every further sequence of ledger calls leaves it
`true`, and `isCouponValid` returns `false` for that id at every later
time, regardless of expiry. -/
theorem coupon_validity_monotone (deployer cid : Nat) (ops0 ops1 : List LOp)
    (h0 : ∀ op ∈ ops0, op.sender ≠ 0) (h1 : ∀ op ∈ ops1, op.sender ≠ 0)
    (hused : ((run (LoyaltyToken.constructor deployer) ops0).coupons cid).isUsed
      = true) :
    ((run (LoyaltyToken.constructor deployer) (ops0 ++ ops1)).coupons cid).isUsed
        = true ∧
      ∀ now, (run (LoyaltyToken.constructor deployer) (ops0 ++ ops1)).isCouponValid
        cid now = false := by
  have hinv0 : CouponIdInv (run (LoyaltyToken.constructor deployer) ops0) :=
    couponIdInv_run _ ops0 h0 (couponIdInv_constructor deployer)
  have happ : run (LoyaltyToken.constructor deployer) (ops0 ++ ops1)
      = run (run (LoyaltyToken.constructor deployer) ops0) ops1 := by
    simp [run, List.foldl_append]
  have hmain := couponIdInv_isUsed_run
    (run (LoyaltyToken.constructor deployer) ops0) ops1 cid h1 hinv0 hused
  rw [happ]
  refine ⟨hmain.2, fun now => ?_⟩
  simp [LoyaltyToken.isCouponValid, hmain.2]

/-- Witness for C9: create coupon 1, use it, then run one more call; it
stays used and invalid. -/
theorem coupon_validity_monotone_witness :
    ((run (LoyaltyToken.constructor 1)
        ([LOp.opCreateCoupon 1 2 50 "cafe" 30 100, LOp.opUseCoupon 1 1 100] ++
          [LOp.opEarnTokensForSelf 1 9])).coupons 1).isUsed = true ∧
      (run (LoyaltyToken.constructor 1)
        ([LOp.opCreateCoupon 1 2 50 "cafe" 30 100, LOp.opUseCoupon 1 1 100] ++
          [LOp.opEarnTokensForSelf 1 9])).isCouponValid 1 101 = false := by
  have h := coupon_validity_monotone 1 1
    [LOp.opCreateCoupon 1 2 50 "cafe" 30 100, LOp.opUseCoupon 1 1 100]
    [LOp.opEarnTokensForSelf 1 9]
    (by decide) (by decide) (by decide)
  exact ⟨h.1, h.2 101⟩

/-- C8.  `isCouponValid` returns true iff the stored record satisfies
`!isUsed && now <= expiryTime && owner != 0` (hence false for every id
never created, which still holds the all-zero default record), and a
coupon just created with `validityDays = vd` at time `now` is valid at
`now + vd*86400 - 1` and invalid at `now + vd*86400 + 1`. -/
theorem isCouponValid_correct (s : LoyaltyToken) :
    (∀ cid now, s.isCouponValid cid now = true ↔
      ((s.coupons cid).isUsed = false ∧ now ≤ (s.coupons cid).expiryTime ∧
        (s.coupons cid).owner ≠ 0)) ∧
    (CouponIdInv s → ∀ cid, s.nextCouponId ≤ cid → ∀ now,
      s.isCouponValid cid now = false) ∧
    (∀ sender amt disc bt vd now s' cid,
      s.createCoupon sender amt disc bt vd now = some (s', cid) →
      s'.isCouponValid cid (now + vd * 86400 - 1) = true ∧
      s'.isCouponValid cid (now + vd * 86400 + 1) = false) := by
  refine ⟨fun cid now => ?_, fun hinv cid hcid now => ?_, ?_⟩
  · simp only [LoyaltyToken.isCouponValid, Bool.and_eq_true, Bool.not_eq_true',
      decide_eq_true_eq]
    tauto
  · have hdef := hinv cid hcid
    simp [LoyaltyToken.isCouponValid, hdef, defaultCoupon]
  · intro sender amt disc bt vd now s' cid hcc
    obtain ⟨_, _, _, hvd1, _, _, hsender, hcid, rfl⟩ := createCoupon_some hcc
    subst hcid
    constructor
    · have hle : now + vd * 86400 - 1 ≤ now + vd * 24 * 60 * 60 := by omega
      simp [LoyaltyToken.isCouponValid, Function.update_same, hle, hsender]
    · have hgt : ¬(now + vd * 86400 + 1 ≤ now + vd * 24 * 60 * 60) := by omega
      simp [LoyaltyToken.isCouponValid, Function.update_same, hgt]

/-- Witness for C8: in the constructor state no coupon was ever created,
so any queried id (here 5) is reported invalid. -/
theorem isCouponValid_correct_witness :
    (LoyaltyToken.constructor 1).isCouponValid 5 0 = false :=
  (isCouponValid_correct (LoyaltyToken.constructor 1)).2.1
    (fun _ _ => rfl) 5 (by decide) 0

/-- C7 counterexample: on the constructor state, burning 100 base units
for a coupon decreases the caller's balance by exactly the stored
`tokensBurned` — the claimed strictly-greater decrease (burn plus a
separately collected fee) is false at this input. -/
theorem createCoupon_fee_cex :
    ((LoyaltyToken.constructor 1).createCoupon 1 100 20 "restaurant" 30 0).map
      (fun p => decide ((LoyaltyToken.constructor 1).balances 1 - p.1.balances 1
        > (p.1.coupons p.2).tokensBurned)) = some false := by decide

/-- C7 (amended).  `createCoupon` collects no separate fee: whenever the
call succeeds, the caller's balance decreases by exactly the stored
coupon's `tokensBurned`, which equals the full `tokenAmount` argument. -/
theorem createCoupon_burn_exact (s : LoyaltyToken) (sender amt disc : Nat)
    (bt : String) (vd now : Nat) :
    (s.createCoupon sender amt disc bt vd now).map
        (fun p => s.balances sender - p.1.balances sender)
      = (s.createCoupon sender amt disc bt vd now).map
        (fun p => (p.1.coupons p.2).tokensBurned) ∧
    (s.createCoupon sender amt disc bt vd now).map
        (fun p => (p.1.coupons p.2).tokensBurned)
      = (s.createCoupon sender amt disc bt vd now).map (fun _ => amt) := by
  rcases he : s.createCoupon sender amt disc bt vd now with _ | p
  · simp
  · obtain ⟨s', cid⟩ := p
    obtain ⟨_, _, _, _, _, hbal, _, hcid, rfl⟩ := createCoupon_some he
    subst hcid
    have hd : s.balances sender - (s.balances sender - amt) = amt := by omega
    simp [Option.map_some', Function.update_same, hd]

/-! ### The exchange pool (claims C4, C5, C6, C10) -/

lemma swapEthForTokens_some {s s' : SimpleDEX} {v sent fee : Nat}
    (h : s.swapEthForTokens v = some (s', sent, fee)) :
    0 < v ∧
    fee = v * s.exchangeRate / 10 ^ 18 * s.feePercentage / 10000 ∧
    sent = v * s.exchangeRate / 10 ^ 18 - fee ∧
    sent ≤ s.tokenLiquidity ∧
    s' = { s with ethLiquidity := s.ethLiquidity + v
                  tokenLiquidity := s.tokenLiquidity - sent } := by
  unfold SimpleDEX.swapEthForTokens at h
  dsimp only at h
  split at h
  · exact absurd h (by simp)
  split at h
  · exact absurd h (by simp)
  · simp only [Option.some.injEq, Prod.mk.injEq] at h
    obtain ⟨hs', hsent, hfee⟩ := h
    subst hfee
    subst hsent
    exact ⟨by omega, rfl, rfl, by omega, hs'.symm⟩

lemma swapTokensForEth_some {s s' : SimpleDEX} {amt sent fee : Nat}
    (h : s.swapTokensForEth amt = some (s', sent, fee)) :
    0 < amt ∧ s.exchangeRate ≠ 0 ∧
    fee = amt * 10 ^ 18 / s.exchangeRate * s.feePercentage / 10000 ∧
    sent = amt * 10 ^ 18 / s.exchangeRate - fee ∧
    sent ≤ s.ethLiquidity ∧
    s' = { s with tokenLiquidity := s.tokenLiquidity + amt
                  ethLiquidity := s.ethLiquidity - sent } := by
  unfold SimpleDEX.swapTokensForEth at h
  dsimp only at h
  split at h
  · exact absurd h (by simp)
  split at h
  · exact absurd h (by simp)
  split at h
  · exact absurd h (by simp)
  · simp only [Option.some.injEq, Prod.mk.injEq] at h
    obtain ⟨hs', hsent, hfee⟩ := h
    subst hfee
    subst hsent
    exact ⟨by omega, by assumption, rfl, rfl, by omega, hs'.symm⟩

/-- C4.  `calculateSwap` is a pure preview (its type carries no state
output): in each direction it returns exactly the `(toSend, fee)` pair
the corresponding swap computes, and with `exchangeRate = 1000e18`,
`feePercentage = 100`, one native unit previews to 990 tokens out and a
10-token fee (in 18-decimal base units). -/
theorem calculateSwap_preview (s : SimpleDEX) :
    (∀ v s' sent fee, s.swapEthForTokens v = some (s', sent, fee) →
      s.calculateSwap v true = (sent, fee)) ∧
    (∀ amt s' sent fee, s.swapTokensForEth amt = some (s', sent, fee) →
      s.calculateSwap amt false = (sent, fee)) ∧
    (s.exchangeRate = 1000 * 10 ^ 18 → s.feePercentage = 100 →
      s.calculateSwap (10 ^ 18) true = (990 * 10 ^ 18, 10 * 10 ^ 18)) := by
  refine ⟨?_, ?_, ?_⟩
  · intro v s' sent fee h
    obtain ⟨_, hfee, hsent, _, _⟩ := swapEthForTokens_some h
    subst hfee
    subst hsent
    rfl
  · intro amt s' sent fee h
    obtain ⟨_, _, hfee, hsent, _, _⟩ := swapTokensForEth_some h
    subst hfee
    subst hsent
    rfl
  · intro hrate hfee
    unfold SimpleDEX.calculateSwap
    rw [hrate, hfee]
    norm_num

/-- Witness for C4 on a concrete pool in both directions. -/
theorem calculateSwap_preview_witness :
    (SimpleDEX.mk 1 2 (1000 * 10 ^ 18) 100 (10 ^ 18)
        (1000 * 10 ^ 18)).calculateSwap (10 ^ 18) true
      = (990 * 10 ^ 18, 10 * 10 ^ 18) ∧
    (SimpleDEX.mk 1 2 (1000 * 10 ^ 18) 100 (10 ^ 18)
        (1000 * 10 ^ 18)).calculateSwap (1000 * 10 ^ 18) false
      = (99 * 10 ^ 16, 10 ^ 16) :=
  ⟨(calculateSwap_preview
      (SimpleDEX.mk 1 2 (1000 * 10 ^ 18) 100 (10 ^ 18) (1000 * 10 ^ 18))).1
      (10 ^ 18)
      (SimpleDEX.mk 1 2 (1000 * 10 ^ 18) 100 (2 * 10 ^ 18) (10 * 10 ^ 18))
      (990 * 10 ^ 18) (10 * 10 ^ 18) (by decide),
   (calculateSwap_preview
      (SimpleDEX.mk 1 2 (1000 * 10 ^ 18) 100 (10 ^ 18) (1000 * 10 ^ 18))).2.1
      (1000 * 10 ^ 18)
      (SimpleDEX.mk 1 2 (1000 * 10 ^ 18) 100 (10 ^ 16) (2000 * 10 ^ 18))
      (99 * 10 ^ 16) (10 ^ 16) (by decide)⟩

/-- C5.  `swapEthForTokens` liquidity update: for `v > 0` with enough
token liquidity (and the fee in its deployed basis-point range, which
every reachable pool state satisfies), the call adds exactly `v` to
`ethLiquidity` and removes exactly `toSend = gross - fee` from
`tokenLiquidity`; the fee is not deducted, so the token counter ends at
`tokenLiquidity - gross + fee` — the fee stays counted as liquidity. -/
theorem swapEthForTokens_liquidity (s : SimpleDEX) (v : Nat) (hv : 0 < v)
    (hfee : s.feePercentage ≤ 1000)
    (hliq : v * s.exchangeRate / 10 ^ 18
        - v * s.exchangeRate / 10 ^ 18 * s.feePercentage / 10000
      ≤ s.tokenLiquidity) :
    ∃ s' sent fee,
      s.swapEthForTokens v = some (s', sent, fee) ∧
      fee = v * s.exchangeRate / 10 ^ 18 * s.feePercentage / 10000 ∧
      sent = v * s.exchangeRate / 10 ^ 18 - fee ∧
      s'.ethLiquidity = s.ethLiquidity + v ∧
      s'.tokenLiquidity = s.tokenLiquidity - sent ∧
      s'.tokenLiquidity + v * s.exchangeRate / 10 ^ 18
        = s.tokenLiquidity + fee ∧
      s'.exchangeRate = s.exchangeRate ∧
      s'.feePercentage = s.feePercentage := by
  have hfg : v * s.exchangeRate / 10 ^ 18 * s.feePercentage / 10000
      ≤ v * s.exchangeRate / 10 ^ 18 := by
    calc v * s.exchangeRate / 10 ^ 18 * s.feePercentage / 10000
        ≤ v * s.exchangeRate / 10 ^ 18 * 10000 / 10000 :=
          Nat.div_le_div_right (Nat.mul_le_mul_left _ (by omega))
      _ = v * s.exchangeRate / 10 ^ 18 := Nat.mul_div_cancel _ (by norm_num)
  refine ⟨{ s with
      ethLiquidity := s.ethLiquidity + v
      tokenLiquidity := s.tokenLiquidity - (v * s.exchangeRate / 10 ^ 18
        - v * s.exchangeRate / 10 ^ 18 * s.feePercentage / 10000) },
    v * s.exchangeRate / 10 ^ 18
      - v * s.exchangeRate / 10 ^ 18 * s.feePercentage / 10000,
    v * s.exchangeRate / 10 ^ 18 * s.feePercentage / 10000,
    ?_, rfl, rfl, rfl, rfl, ?_, rfl, rfl⟩
  · unfold SimpleDEX.swapEthForTokens
    dsimp only
    rw [if_neg (by omega), if_neg (Nat.not_lt.mpr hliq)]
  · dsimp only
    generalize hG : v * s.exchangeRate / 10 ^ 18 = g at hliq hfg ⊢
    generalize hF : g * s.feePercentage / 10000 = f at hliq hfg ⊢
    omega

/-- Witness for C5: one native unit against a 1000-token pool at rate
1000e18 and 1% fee. -/
theorem swapEthForTokens_liquidity_witness :
    ∃ s' sent fee,
      (SimpleDEX.mk 1 2 (1000 * 10 ^ 18) 100 (10 ^ 18)
          (1000 * 10 ^ 18)).swapEthForTokens (10 ^ 18) = some (s', sent, fee) ∧
      fee = 10 ^ 18 * (1000 * 10 ^ 18) / 10 ^ 18 * 100 / 10000 ∧
      sent = 10 ^ 18 * (1000 * 10 ^ 18) / 10 ^ 18 - fee ∧
      s'.ethLiquidity = 10 ^ 18 + 10 ^ 18 ∧
      s'.tokenLiquidity = 1000 * 10 ^ 18 - sent ∧
      s'.tokenLiquidity + 10 ^ 18 * (1000 * 10 ^ 18) / 10 ^ 18
        = 1000 * 10 ^ 18 + fee ∧
      s'.exchangeRate = 1000 * 10 ^ 18 ∧
      s'.feePercentage = 100 :=
  swapEthForTokens_liquidity
    (SimpleDEX.mk 1 2 (1000 * 10 ^ 18) 100 (10 ^ 18) (1000 * 10 ^ 18))
    (10 ^ 18) (by decide) (by decide) (by decide)

/-- C6.  Liquidity exhaustion: a swap whose net output exceeds the
opposing liquidity counter reverts, and the transaction-level step leaves
the whole pool state (both counters, rate, fee) unchanged. -/
theorem swap_liquidity_exhaustion (s : SimpleDEX) (v amt : Nat) :
    (s.tokenLiquidity < v * s.exchangeRate / 10 ^ 18
        - v * s.exchangeRate / 10 ^ 18 * s.feePercentage / 10000 →
      s.swapEthForTokens v = none ∧
      dexStep s (DexOp.opSwapEthForTokens v) = s) ∧
    (s.ethLiquidity < amt * 10 ^ 18 / s.exchangeRate
        - amt * 10 ^ 18 / s.exchangeRate * s.feePercentage / 10000 →
      s.swapTokensForEth amt = none ∧
      dexStep s (DexOp.opSwapTokensForEth amt) = s) := by
  constructor
  · intro hliq
    have hnone : s.swapEthForTokens v = none := by
      unfold SimpleDEX.swapEthForTokens
      dsimp only
      by_cases hv : v = 0
      · subst hv
        simp at hliq
      · rw [if_neg hv, if_pos hliq]
    exact ⟨hnone, by simp [dexStep, hnone]⟩
  · intro hliq
    have hnone : s.swapTokensForEth amt = none := by
      unfold SimpleDEX.swapTokensForEth
      dsimp only
      by_cases hamt : amt = 0
      · subst hamt
        simp at hliq
      · by_cases hr : s.exchangeRate = 0
        · rw [if_neg hamt, if_pos hr]
        · rw [if_neg hamt, if_neg hr, if_pos hliq]
    exact ⟨hnone, by simp [dexStep, hnone]⟩

/-- Witness for C6 on an empty pool. -/
theorem swap_liquidity_exhaustion_witness :
    ((SimpleDEX.mk 1 2 (1000 * 10 ^ 18) 100 0 0).swapEthForTokens (10 ^ 18)
        = none ∧
      dexStep (SimpleDEX.mk 1 2 (1000 * 10 ^ 18) 100 0 0)
          (DexOp.opSwapEthForTokens (10 ^ 18))
        = SimpleDEX.mk 1 2 (1000 * 10 ^ 18) 100 0 0) ∧
    ((SimpleDEX.mk 1 2 (1000 * 10 ^ 18) 100 0 0).swapTokensForEth
          (1000 * 10 ^ 18) = none ∧
      dexStep (SimpleDEX.mk 1 2 (1000 * 10 ^ 18) 100 0 0)
          (DexOp.opSwapTokensForEth (1000 * 10 ^ 18))
        = SimpleDEX.mk 1 2 (1000 * 10 ^ 18) 100 0 0) :=
  ⟨(swap_liquidity_exhaustion (SimpleDEX.mk 1 2 (1000 * 10 ^ 18) 100 0 0)
      (10 ^ 18) (1000 * 10 ^ 18)).1 (by decide),
   (swap_liquidity_exhaustion (SimpleDEX.mk 1 2 (1000 * 10 ^ 18) 100 0 0)
      (10 ^ 18) (1000 * 10 ^ 18)).2 (by decide)⟩

lemma dex_constructor_some {deployer tokenAddr rate fee : Nat} {s0 : SimpleDEX}
    (h : SimpleDEX.constructor deployer tokenAddr rate fee = some s0) :
    tokenAddr ≠ 0 ∧ rate ≠ 0 ∧ fee ≤ 1000 ∧
    s0 = { owner := deployer, loyalToken := tokenAddr, exchangeRate := rate
           feePercentage := fee, ethLiquidity := 0, tokenLiquidity := 0 } := by
  unfold SimpleDEX.constructor at h
  split at h
  · exact absurd h (by simp)
  split at h
  · exact absurd h (by simp)
  split at h
  · exact absurd h (by simp)
  · exact ⟨by assumption, by assumption, by omega, (Option.some.inj h).symm⟩

/-- Every pool call preserves positivity of `exchangeRate` and the
1000-basis-point fee cap. -/
lemma dexInv_step (s : SimpleDEX) (op : DexOp)
    (h : 0 < s.exchangeRate ∧ s.feePercentage ≤ 1000) :
    0 < (dexStep s op).exchangeRate ∧ (dexStep s op).feePercentage ≤ 1000 := by
  cases op with
  | opSwapEthForTokens v =>
    rcases he : s.swapEthForTokens v with _ | p
    · simpa [dexStep, he] using h
    · obtain ⟨s', sent, fee⟩ := p
      obtain ⟨_, _, _, _, rfl⟩ := swapEthForTokens_some he
      simpa [dexStep, he] using h
  | opSwapTokensForEth amt =>
    rcases he : s.swapTokensForEth amt with _ | p
    · simpa [dexStep, he] using h
    · obtain ⟨s', sent, fee⟩ := p
      obtain ⟨_, _, _, _, _, rfl⟩ := swapTokensForEth_some he
      simpa [dexStep, he] using h
  | opAddLiquidity v amt =>
    rcases he : s.addLiquidity v amt with _ | s'
    · simpa [dexStep, he] using h
    · have he2 := he
      unfold SimpleDEX.addLiquidity at he2
      split at he2
      · exact absurd he2 (by simp)
      split at he2
      · exact absurd he2 (by simp)
      · obtain rfl := (Option.some.inj he2).symm
        simpa [dexStep, he] using h
  | opRemoveLiquidity sender e t =>
    rcases he : s.removeLiquidity sender e t with _ | s'
    · simpa [dexStep, he] using h
    · have he2 := he
      unfold SimpleDEX.removeLiquidity at he2
      split at he2
      · exact absurd he2 (by simp)
      split at he2
      · exact absurd he2 (by simp)
      split at he2
      · exact absurd he2 (by simp)
      · obtain rfl := (Option.some.inj he2).symm
        simpa [dexStep, he] using h
  | opUpdateExchangeRate sender r =>
    rcases he : s.updateExchangeRate sender r with _ | s'
    · simpa [dexStep, he] using h
    · have he2 := he
      unfold SimpleDEX.updateExchangeRate at he2
      split at he2
      · exact absurd he2 (by simp)
      split at he2
      · exact absurd he2 (by simp)
      · obtain rfl := (Option.some.inj he2).symm
        refine ⟨?_, ?_⟩
        · simp only [dexStep, he, Option.getD_some]
          omega
        · simpa [dexStep, he] using h.2
  | opUpdateFee sender f =>
    rcases he : s.updateFee sender f with _ | s'
    · simpa [dexStep, he] using h
    · have he2 := he
      unfold SimpleDEX.updateFee at he2
      split at he2
      · exact absurd he2 (by simp)
      split at he2
      · exact absurd he2 (by simp)
      · obtain rfl := (Option.some.inj he2).symm
        refine ⟨?_, ?_⟩
        · simpa [dexStep, he] using h.1
        · simp only [dexStep, he, Option.getD_some]
          omega
  | opEmergencyWithdraw sender =>
    rcases he : s.emergencyWithdraw sender with _ | s'
    · simpa [dexStep, he] using h
    · have he2 := he
      unfold SimpleDEX.emergencyWithdraw at he2
      split at he2
      · exact absurd he2 (by simp)
      · obtain rfl := (Option.some.inj he2).symm
        simpa [dexStep, he] using h

lemma dexInv_run (s : SimpleDEX) (ops : List DexOp)
    (h : 0 < s.exchangeRate ∧ s.feePercentage ≤ 1000) :
    0 < (runDex s ops).exchangeRate ∧ (runDex s ops).feePercentage ≤ 1000 := by
  induction ops generalizing s with
  | nil => exact h
  | cons op rest ih =>
    have h1 := dexInv_step s op h
    have := ih (dexStep s op) h1
    simpa [runDex, List.foldl_cons] using this

/-- C10.  In every pool state reachable from a successful constructor
call, `exchangeRate` is strictly positive (the constructor requires a
positive rate, `updateExchangeRate` requires a positive new rate, and no
other operation writes the field), so the divisions by `exchangeRate` in
`swapTokensForEth` and in the token-to-native branch of `calculateSwap`
never divide by zero. -/
theorem exchangeRate_positive (deployer tokenAddr rate fee : Nat)
    (s0 : SimpleDEX)
    (h0 : SimpleDEX.constructor deployer tokenAddr rate fee = some s0)
    (ops : List DexOp) :
    0 < (runDex s0 ops).exchangeRate := by
  obtain ⟨_, hrate, hfee, rfl⟩ := dex_constructor_some h0
  exact (dexInv_run _ ops ⟨show 0 < rate by omega, hfee⟩).1

/-- Witness for C10 on a concrete deployment and call sequence. -/
theorem exchangeRate_positive_witness :
    0 < (runDex (SimpleDEX.mk 1 2 1000 100 0 0)
        [DexOp.opUpdateFee 1 50, DexOp.opAddLiquidity 5 5,
         DexOp.opSwapEthForTokens 5]).exchangeRate :=
  exchangeRate_positive 1 2 1000 100 (SimpleDEX.mk 1 2 1000 100 0 0)
    (by decide)
    [DexOp.opUpdateFee 1 50, DexOp.opAddLiquidity 5 5,
     DexOp.opSwapEthForTokens 5]

end LoyalLoop
